import Mathlib

/-!
Shallow embedding of the WireGuard receive path (src/receive.c) and proofs
about its handshake admission control, outer-frame parsing, and data-packet
post-processing.

Side-effecting calls to collaborators (cookie checker, noise consumers,
timers, routing table, netstack) are modelled as an explicit event trace:
each embedded function returns the list of collaborator calls it performs,
in order.  Collaborator return values are supplied by an `Oracles` record,
since those collaborators live outside receive.c.
-/

namespace WireGuardReceive

/-- sizeof(struct iphdr): minimal IPv4 header. -/
def IPHDR_SIZE : Nat := 20

/-- sizeof(struct ipv6hdr). -/
def IPV6HDR_SIZE : Nat := 40

/-- sizeof(struct udphdr). -/
def UDPHDR_SIZE : Nat := 8

/-- sizeof(struct message_header): type byte plus three reserved bytes. -/
def MESSAGE_HEADER_SIZE : Nat := 4

/-- Modelled from the spec: the constant MAX_QUEUED_HANDSHAKES is defined in a
header that is not under src/ (receive.c only uses it); the spec recommends
capacity 4096 for the handshake admission queue. -/
def MAX_QUEUED_HANDSHAKES : Nat := 4096

/-- Modelled from the spec: the constant MAX_BURST_HANDSHAKES is defined in a
header that is not under src/; the spec recommends a burst of 8 per worker run. -/
def MAX_BURST_HANDSHAKES : Nat := 8

/-- Modelled from the spec: wire-message total sizes from the spec's message
table (sizeof of the message structs lives in messages.h, not under src/). -/
def MESSAGE_INITIATION_SIZE : Nat := 148

/-- Modelled from the spec: total size of a RespHandshake message. -/
def MESSAGE_RESPONSE_SIZE : Nat := 92

/-- Modelled from the spec: total size of a CookieReply message. -/
def MESSAGE_COOKIE_SIZE : Nat := 64

/-- Modelled from the spec: minimal size of a Data message
(header 4 + receiver_index 4 is part of the 16-byte data header; the spec
table gives receiver_index(4), counter(8), ciphertext+tag(≥ 16), total ≥ 32).
Here: 4 (header) + 4 (receiver index) + 8 (counter) + 16 (tag) = 32. -/
def MESSAGE_DATA_MIN_SIZE : Nat := 32

/-- An sk_buff as the receive path observes it.  `len` is skb->len;
`ipVersion` the version nibble of the header at the current network offset;
`udpOffset` the transport-header offset ((u8 *)udp_hdr(skb) - skb->data);
`udpLen` the UDP header's length field (host order); `mayPull n` the result
of pskb_may_pull(skb, n); `payloadType` the type byte of the tunnel payload;
`senderIndex` the sender_index field of a handshake payload; `src` an
abstract identifier of the datagram's source address. -/
structure Skb where
  len : Nat
  ipVersion : Nat
  udpOffset : Nat
  udpLen : Nat
  mayPull : Nat → Bool
  payloadType : Nat
  senderIndex : Nat
  src : Nat

/-- enum message_type. -/
inductive MessageType where
  | handshakeInitiation
  | handshakeResponse
  | handshakeCookie
  | data
  | invalid
  deriving DecidableEq, Repr

/-- enum cookie_mac_state (cookie.h collaborator). -/
inductive CookieMacState where
  | invalidMac
  | validMacButNoCookie
  | validMacWithCookie
  deriving DecidableEq, Repr

/-- Modelled from the spec: message_determine_type lives in messages.h, which
is not under src/.  Per the spec's classifier section: the first four bytes
give the type; types 1-3 have fixed total sizes, type 4 is variable with a
minimum, anything else (or a short payload) is invalid. -/
def message_determine_type (typeField len : Nat) : MessageType :=
  if len < MESSAGE_HEADER_SIZE then MessageType.invalid
  else if typeField = 1 ∧ len = MESSAGE_INITIATION_SIZE then MessageType.handshakeInitiation
  else if typeField = 2 ∧ len = MESSAGE_RESPONSE_SIZE then MessageType.handshakeResponse
  else if typeField = 3 ∧ len = MESSAGE_COOKIE_SIZE then MessageType.handshakeCookie
  else if typeField = 4 ∧ MESSAGE_DATA_MIN_SIZE ≤ len then MessageType.data
  else MessageType.invalid

/-- skb_data_offset from receive.c: validate the UDP-over-IP envelope and
locate the tunnel payload.  Returns (data_offset, data_len) or none (-EINVAL). -/
def skb_data_offset (skb : Skb) : Option (Nat × Nat) :=
  if skb.len < IPHDR_SIZE then none
  else if skb.ipVersion ≠ 4 ∧ skb.ipVersion ≠ 6 then none
  else if skb.ipVersion = 6 ∧ skb.len < IPV6HDR_SIZE then none
  else
    let data_offset := skb.udpOffset
    if skb.len < data_offset + UDPHDR_SIZE then none
    else
      let data_len := skb.udpLen
      if data_len < UDPHDR_SIZE then none
      else if skb.len - data_offset < data_len then none
      else
        let data_len := data_len - UDPHDR_SIZE
        let data_offset := skb.udpOffset + UDPHDR_SIZE
        if ¬ skb.mayPull (data_offset + MESSAGE_HEADER_SIZE) then none
        else some (data_offset, data_len)

/-- One collaborator call performed by the receive path, in trace order. -/
inductive Event where
  | cookieValidateCall
  | cookieConsume
  | cookieReplySent (src : Nat) (senderIndex : Nat)
  | consumeInitiationCall
  | consumeResponseCall
  | beginSessionCall (peer : Nat)
  | ephemeralKeyCreated (peer : Nat)
  | handshakeComplete (peer : Nat)
  | packetSendQueue (peer : Nat)
  | sendHandshakeResponse (peer : Nat)
  | updateLatestAddr (peer : Nat)
  | setPeerAddr (peer : Nat)
  | rxStats (peer : Nat) (len : Nat)
  | timersAnyAuthorized (peer : Nat)
  | timersDataReceived (peer : Nat)
  | routeLookup (result : Option Nat)
  | peerPut (peer : Option Nat)
  | freeSkb
  | netifRx
  | incRxErrors
  | incRxLengthErrors
  | incRxFrameErrors
  | incRxDropped
  | queueWork
  | enqueueHandshake
  | consumeData
  | bug
  deriving DecidableEq, Repr

/-- Return values of the external collaborators, per input packet. -/
structure Oracles where
  cookieValidate : Skb → Bool → CookieMacState
  consumeInitiation : Skb → Option Nat
  consumeResponse : Skb → Option Nat
  beginSession : Nat → Bool
  routeLookupSrc : Skb → Option Nat
  netifRxSuccess : Skb → Bool
  linearizeOk : Skb → Bool

/-- The packet_needs_cookie computation of receive_handshake_packet
(receive.c lines 98-105): `some needsCookie` to proceed, `none` to drop
with "Invalid MAC". -/
def handshake_decision (under_load : Bool) (mac_state : CookieMacState) : Option Bool :=
  if (under_load = true ∧ mac_state = CookieMacState.validMacWithCookie) ∨
     (under_load = false ∧ mac_state = CookieMacState.validMacButNoCookie) then
    some false
  else if under_load = true ∧ mac_state = CookieMacState.validMacButNoCookie then
    some true
  else
    none

/-- The post-accept bookkeeping tail of receive_handshake_packet
(rx_stats; timers_any_authorized_packet_received; update_latest_addr; peer_put). -/
def handshake_tail (peer len : Nat) : List Event :=
  [Event.rxStats peer len, Event.timersAnyAuthorized peer,
   Event.updateLatestAddr peer, Event.peerPut (some peer)]

/-- receive_handshake_packet from receive.c, as the trace of collaborator
calls it performs.  `queueLen` is skb_queue_len(&wg->incoming_handshakes) at
entry (the worker calls this after dequeuing, so it is the remaining length). -/
def receive_handshake_packet (queueLen : Nat) (skb : Skb) (len : Nat) (o : Oracles) :
    List Event :=
  let message_type := message_determine_type skb.payloadType len
  if message_type = MessageType.handshakeCookie then
    [Event.cookieConsume]
  else
    let under_load : Bool := decide (MAX_QUEUED_HANDSHAKES / 2 ≤ queueLen)
    let mac_state := o.cookieValidate skb under_load
    Event.cookieValidateCall ::
      match handshake_decision under_load mac_state with
      | none => []
      | some needsCookie =>
        match message_type with
        | MessageType.handshakeInitiation =>
          if needsCookie then
            [Event.cookieReplySent skb.src skb.senderIndex]
          else
            Event.consumeInitiationCall ::
              match o.consumeInitiation skb with
              | none => []
              | some peer =>
                Event.updateLatestAddr peer :: Event.sendHandshakeResponse peer ::
                  handshake_tail peer len
        | MessageType.handshakeResponse =>
          if needsCookie then
            [Event.cookieReplySent skb.src skb.senderIndex]
          else
            Event.consumeResponseCall ::
              match o.consumeResponse skb with
              | none => []
              | some peer =>
                Event.beginSessionCall peer ::
                  (if o.beginSession peer then
                    [Event.ephemeralKeyCreated peer, Event.handshakeComplete peer,
                     Event.packetSendQueue peer]
                  else []) ++ handshake_tail peer len
        | _ => [Event.bug]

/-- packet_process_queued_handshake_packets from receive.c: dequeue, re-parse,
process, free; after MAX_BURST_HANDSHAKES items re-queue the work item and
return.  The queue is the list, head first; `num` is num_processed so far. -/
def packet_process_queued_handshake_packets (o : Oracles) :
    List Skb → Nat → List Event
  | [], _ => []
  | skb :: rest, num =>
    (match skb_data_offset skb with
     | some (_, len) => receive_handshake_packet rest.length skb len o
     | none => []) ++
    Event.freeSkb ::
      (if num + 1 = MAX_BURST_HANDSHAKES then [Event.queueWork]
       else packet_process_queued_handshake_packets o rest (num + 1))

/-- packet_receive from receive.c: the single ingress for inbound datagrams.
`queueLen` is skb_queue_len(&wg->incoming_handshakes) at the capacity check. -/
def packet_receive (o : Oracles) (queueLen : Nat) (skb : Skb) : List Event :=
  match skb_data_offset skb with
  | none => [Event.freeSkb]
  | some (_, len) =>
    match message_determine_type skb.payloadType len with
    | MessageType.handshakeInitiation
    | MessageType.handshakeResponse
    | MessageType.handshakeCookie =>
      if MAX_QUEUED_HANDSHAKES < queueLen then [Event.freeSkb]
      else if ¬ o.linearizeOk skb then [Event.freeSkb]
      else [Event.enqueueHandshake, Event.queueWork]
    | MessageType.data => [Event.consumeData]
    | MessageType.invalid => [Event.freeSkb]

/-- The continue_processing tail of receive_data_packet:
timers_any_authorized_packet_received; socket_set_peer_addr; peer_put. -/
def rdp_continue (p : Nat) : List Event :=
  [Event.timersAnyAuthorized p, Event.setPeerAddr p, Event.peerPut (some p)]

/-- The packet_processed label of receive_data_packet: free the skb, then
fall through to continue_processing. -/
def rdp_processed (p : Nat) : List Event :=
  Event.freeSkb :: rdp_continue p

/-- receive_data_packet after the protocol field has been determined
(receive.c lines 229-252): timers_data_received, the cryptokey-routing
source check, then delivery to the netstack. -/
def rdp_after_proto (o : Oracles) (skb : Skb) (p : Nat) : List Event :=
  let routed := o.routeLookupSrc skb
  Event.timersDataReceived p :: Event.routeLookup routed :: Event.peerPut routed ::
    (if routed ≠ some p then
      Event.incRxErrors :: Event.incRxFrameErrors :: rdp_processed p
    else if o.netifRxSuccess skb then
      Event.netifRx :: Event.rxStats p skb.len :: rdp_continue p
    else
      Event.netifRx :: Event.incRxDropped :: rdp_continue p)

/-- receive_data_packet from receive.c: the completion callback of the
decryption pipeline, as its collaborator-call trace.  `skb.len` is the
decrypted plaintext length; `err` is the pipeline's status. -/
def receive_data_packet (o : Oracles) (skb : Skb) (peer addr : Option Nat)
    (usedNewKey : Bool) (err : Int) : List Event :=
  if err < 0 ∨ peer = none ∨ addr = none then
    [Event.freeSkb]
  else
    let p := peer.getD 0
    let pre := if usedNewKey then [Event.packetSendQueue p] else []
    if skb.len = 0 then
      pre ++ rdp_processed p
    else if skb.len < IPHDR_SIZE then
      pre ++ Event.incRxErrors :: Event.incRxLengthErrors :: rdp_processed p
    else if ¬ skb.mayPull 1 then
      pre ++ Event.incRxErrors :: Event.incRxLengthErrors :: rdp_processed p
    else if skb.ipVersion = 4 then
      pre ++ rdp_after_proto o skb p
    else if skb.ipVersion = 6 then
      if skb.len < IPV6HDR_SIZE then
        pre ++ Event.incRxErrors :: Event.incRxLengthErrors :: rdp_processed p
      else
        pre ++ rdp_after_proto o skb p
    else
      pre ++ Event.incRxErrors :: Event.incRxLengthErrors :: rdp_processed p

/-- The change an event makes to peer `p`'s reference count: a routing-table
lookup that returns `p` takes a reference, peer_put on `p` drops one. -/
def refDelta (p : Nat) : Event → Int
  | Event.routeLookup (some r) => if r = p then 1 else 0
  | Event.peerPut (some r) => if r = p then -1 else 0
  | _ => 0

/-- Net reference-count change of a trace on peer `p`. -/
def traceRefDelta (p : Nat) (t : List Event) : Int :=
  (t.map (refDelta p)).sum

/-- A handshake message proceeded past the MAC gate to cryptographic
consumption (the "accept" action of the decision matrix). -/
def accepts (t : List Event) : Prop :=
  Event.consumeInitiationCall ∈ t ∨ Event.consumeResponseCall ∈ t

instance (t : List Event) : Decidable (accepts t) := by
  unfold accepts; infer_instance

/-- Concrete test vector: a well-formed handshake-initiation datagram.
20-byte IPv4 header, 8-byte UDP header, 148-byte payload, fully linear. -/
def initSkb : Skb :=
  { len := 176, ipVersion := 4, udpOffset := 20, udpLen := 156,
    mayPull := fun n => decide (n ≤ 176), payloadType := 1, senderIndex := 11, src := 99 }

/-- Concrete test vector: a datagram too short for an IPv4 header. -/
def badSkb : Skb :=
  { len := 10, ipVersion := 4, udpOffset := 0, udpLen := 0,
    mayPull := fun n => decide (n ≤ 10), payloadType := 1, senderIndex := 0, src := 99 }

/-- Concrete test vector: a decrypted inner IPv4 packet of 64 bytes. -/
def innerSkb : Skb :=
  { len := 64, ipVersion := 4, udpOffset := 0, udpLen := 0,
    mayPull := fun n => decide (n ≤ 64), payloadType := 0, senderIndex := 0, src := 0 }

/-- Concrete test vector: a decrypted keep-alive (plaintext length 0). -/
def keepaliveSkb : Skb :=
  { len := 0, ipVersion := 0, udpOffset := 0, udpLen := 0,
    mayPull := fun _ => true, payloadType := 0, senderIndex := 0, src := 0 }

/-- Baseline collaborator behaviour for concrete runs: MAC1 valid without a
cookie, consumers authenticate peer 7, routing resolves to peer 5, the
netstack accepts, linearization succeeds. -/
def oraclesBase : Oracles :=
  { cookieValidate := fun _ _ => CookieMacState.validMacButNoCookie,
    consumeInitiation := fun _ => some 7,
    consumeResponse := fun _ => some 7,
    beginSession := fun _ => true,
    routeLookupSrc := fun _ => some 5,
    netifRxSuccess := fun _ => true,
    linearizeOk := fun _ => true }

/-- Collaborators as in `oraclesBase` but the cookie checker reports a valid
MAC1 together with a valid MAC2 cookie. -/
def oraclesWithCookie : Oracles :=
  { oraclesBase with cookieValidate := fun _ _ => CookieMacState.validMacWithCookie }

/-- Collaborators as in `oraclesBase` but the routing table resolves the inner
source address to peer 6. -/
def oraclesForeignRoute : Oracles :=
  { oraclesBase with routeLookupSrc := fun _ => some 6 }

/-- The admission queue filled to exactly half capacity. -/
def bigQueue : List Skb := List.replicate (MAX_QUEUED_HANDSHAKES / 2) initSkb

theorem traceRefDelta_nil (p : Nat) : traceRefDelta p [] = 0 := rfl

theorem traceRefDelta_cons (p : Nat) (e : Event) (t : List Event) :
    traceRefDelta p (e :: t) = refDelta p e + traceRefDelta p t := by
  simp [traceRefDelta]

theorem traceRefDelta_append (p : Nat) (s t : List Event) :
    traceRefDelta p (s ++ t) = traceRefDelta p s + traceRefDelta p t := by
  simp [traceRefDelta]

/-- C7: skb_data_offset fails exactly when one of its checks fails (length
below the IPv4 minimum; IP version outside {4,6}; version 6 shorter than an
IPv6 header; UDP header not fully present; UDP length field below 8 or larger
than the bytes after the UDP offset; 4-byte message header not pullable), and
on success yields data_offset = udp_offset + 8 and data_len = udp_length - 8. -/
theorem skb_data_offset_characterization (skb : Skb) :
    skb_data_offset skb =
      if skb.len < IPHDR_SIZE
          ∨ (skb.ipVersion ≠ 4 ∧ skb.ipVersion ≠ 6)
          ∨ (skb.ipVersion = 6 ∧ skb.len < IPV6HDR_SIZE)
          ∨ skb.len < skb.udpOffset + UDPHDR_SIZE
          ∨ skb.udpLen < UDPHDR_SIZE
          ∨ skb.len - skb.udpOffset < skb.udpLen
          ∨ skb.mayPull (skb.udpOffset + UDPHDR_SIZE + MESSAGE_HEADER_SIZE) = false
      then none
      else some (skb.udpOffset + UDPHDR_SIZE, skb.udpLen - UDPHDR_SIZE) := by
  simp only [skb_data_offset, Bool.not_eq_true]
  split_ifs <;> first | rfl | tauto

/-- C1 (amended): for a non-cookie handshake message, receive_handshake_packet
follows the decision matrix: any load with InvalidMac drops; not-under-load
with ValidMac1NoCookie accepts; under-load with ValidMac1WithCookie accepts;
under-load with ValidMac1NoCookie emits a cookie reply; and - amending the
original claim - not-under-load with ValidMac1WithCookie is dropped, not
accepted. -/
theorem receive_handshake_decision_matrix (queueLen : Nat) (skb : Skb) (len : Nat)
    (o : Oracles)
    (hmt : message_determine_type skb.payloadType len = MessageType.handshakeInitiation ∨
           message_determine_type skb.payloadType len = MessageType.handshakeResponse) :
    (o.cookieValidate skb (decide (MAX_QUEUED_HANDSHAKES / 2 ≤ queueLen)) =
        CookieMacState.invalidMac →
      receive_handshake_packet queueLen skb len o = [Event.cookieValidateCall]) ∧
    (queueLen < MAX_QUEUED_HANDSHAKES / 2 →
      o.cookieValidate skb false = CookieMacState.validMacButNoCookie →
      accepts (receive_handshake_packet queueLen skb len o)) ∧
    (MAX_QUEUED_HANDSHAKES / 2 ≤ queueLen →
      o.cookieValidate skb true = CookieMacState.validMacWithCookie →
      accepts (receive_handshake_packet queueLen skb len o)) ∧
    (MAX_QUEUED_HANDSHAKES / 2 ≤ queueLen →
      o.cookieValidate skb true = CookieMacState.validMacButNoCookie →
      receive_handshake_packet queueLen skb len o =
        [Event.cookieValidateCall, Event.cookieReplySent skb.src skb.senderIndex]) ∧
    (queueLen < MAX_QUEUED_HANDSHAKES / 2 →
      o.cookieValidate skb false = CookieMacState.validMacWithCookie →
      receive_handshake_packet queueLen skb len o = [Event.cookieValidateCall]) := by
  refine ⟨?_, ?_, ?_, ?_, ?_⟩
  · intro hv
    rcases hmt with h | h <;>
      simp [receive_handshake_packet, h, hv, handshake_decision]
  · intro hq hv
    have hul : decide (MAX_QUEUED_HANDSHAKES / 2 ≤ queueLen) = false := by
      simpa using Nat.not_le.mpr hq
    rcases hmt with h | h <;>
      simp [receive_handshake_packet, h, hul, hv, handshake_decision, accepts]
  · intro hq hv
    have hul : decide (MAX_QUEUED_HANDSHAKES / 2 ≤ queueLen) = true := decide_eq_true hq
    rcases hmt with h | h <;>
      simp [receive_handshake_packet, h, hul, hv, handshake_decision, accepts]
  · intro hq hv
    have hul : decide (MAX_QUEUED_HANDSHAKES / 2 ≤ queueLen) = true := decide_eq_true hq
    rcases hmt with h | h <;>
      simp [receive_handshake_packet, h, hul, hv, handshake_decision]
  · intro hq hv
    have hul : decide (MAX_QUEUED_HANDSHAKES / 2 ≤ queueLen) = false := by
      simpa using Nat.not_le.mpr hq
    rcases hmt with h | h <;>
      simp [receive_handshake_packet, h, hul, hv, handshake_decision]

/-- C1 counterexample: a handshake initiation arriving when the device is not
under load and whose MACs carry a valid cookie is dropped at the MAC gate (the
trace stops at the cookie-checker call), not accepted as the matrix row
(false, ValidMac1WithCookie) claims. -/
theorem not_under_load_with_cookie_dropped :
    receive_handshake_packet 0 initSkb 148 oraclesWithCookie =
      [Event.cookieValidateCall] ∧
    ¬ accepts (receive_handshake_packet 0 initSkb 148 oraclesWithCookie) := by
  exact ⟨rfl, by decide⟩

/-- C1 witness: the matrix theorem applied to a concrete initiation message
with the baseline collaborators and an empty queue. -/
theorem receive_handshake_decision_matrix_witness :
    (oraclesBase.cookieValidate initSkb
        (decide (MAX_QUEUED_HANDSHAKES / 2 ≤ 0)) = CookieMacState.invalidMac →
      receive_handshake_packet 0 initSkb 148 oraclesBase = [Event.cookieValidateCall]) ∧
    (0 < MAX_QUEUED_HANDSHAKES / 2 →
      oraclesBase.cookieValidate initSkb false = CookieMacState.validMacButNoCookie →
      accepts (receive_handshake_packet 0 initSkb 148 oraclesBase)) ∧
    (MAX_QUEUED_HANDSHAKES / 2 ≤ 0 →
      oraclesBase.cookieValidate initSkb true = CookieMacState.validMacWithCookie →
      accepts (receive_handshake_packet 0 initSkb 148 oraclesBase)) ∧
    (MAX_QUEUED_HANDSHAKES / 2 ≤ 0 →
      oraclesBase.cookieValidate initSkb true = CookieMacState.validMacButNoCookie →
      receive_handshake_packet 0 initSkb 148 oraclesBase =
        [Event.cookieValidateCall, Event.cookieReplySent initSkb.src initSkb.senderIndex]) ∧
    (0 < MAX_QUEUED_HANDSHAKES / 2 →
      oraclesBase.cookieValidate initSkb false = CookieMacState.validMacWithCookie →
      receive_handshake_packet 0 initSkb 148 oraclesBase = [Event.cookieValidateCall]) :=
  receive_handshake_decision_matrix 0 initSkb 148 oraclesBase (Or.inl rfl)

/-- C8: when under load and the cookie verdict is ValidMac1NoCookie, an
initiation or response message produces exactly one cookie reply, addressed to
the datagram's source and carrying the inbound message's sender index, and no
handshake consumption, session begin, peer-address update, or rx-counter
change happens. -/
theorem under_load_no_cookie_single_reply (queueLen : Nat) (skb : Skb) (len : Nat)
    (o : Oracles)
    (hload : MAX_QUEUED_HANDSHAKES / 2 ≤ queueLen)
    (hmac : o.cookieValidate skb true = CookieMacState.validMacButNoCookie)
    (hmt : message_determine_type skb.payloadType len = MessageType.handshakeInitiation ∨
           message_determine_type skb.payloadType len = MessageType.handshakeResponse) :
    receive_handshake_packet queueLen skb len o =
      [Event.cookieValidateCall, Event.cookieReplySent skb.src skb.senderIndex] ∧
    (receive_handshake_packet queueLen skb len o).count
        (Event.cookieReplySent skb.src skb.senderIndex) = 1 ∧
    Event.consumeInitiationCall ∉ receive_handshake_packet queueLen skb len o ∧
    Event.consumeResponseCall ∉ receive_handshake_packet queueLen skb len o ∧
    ∀ q, Event.beginSessionCall q ∉ receive_handshake_packet queueLen skb len o ∧
         Event.updateLatestAddr q ∉ receive_handshake_packet queueLen skb len o ∧
         ∀ l, Event.rxStats q l ∉ receive_handshake_packet queueLen skb len o := by
  have hul : decide (MAX_QUEUED_HANDSHAKES / 2 ≤ queueLen) = true := decide_eq_true hload
  have htr : receive_handshake_packet queueLen skb len o =
      [Event.cookieValidateCall, Event.cookieReplySent skb.src skb.senderIndex] := by
    rcases hmt with h | h <;>
      simp [receive_handshake_packet, h, hul, hmac, handshake_decision]
  rw [htr]
  refine ⟨rfl, by simp, by simp, by simp, fun q => ⟨by simp, by simp, fun l => by simp⟩⟩

/-- C8 witness: a concrete initiation processed at a half-full queue with the
baseline collaborators. -/
theorem under_load_no_cookie_single_reply_witness :
    receive_handshake_packet 2048 initSkb 148 oraclesBase =
      [Event.cookieValidateCall, Event.cookieReplySent initSkb.src initSkb.senderIndex] ∧
    (receive_handshake_packet 2048 initSkb 148 oraclesBase).count
        (Event.cookieReplySent initSkb.src initSkb.senderIndex) = 1 ∧
    Event.consumeInitiationCall ∉ receive_handshake_packet 2048 initSkb 148 oraclesBase ∧
    Event.consumeResponseCall ∉ receive_handshake_packet 2048 initSkb 148 oraclesBase ∧
    ∀ q, Event.beginSessionCall q ∉ receive_handshake_packet 2048 initSkb 148 oraclesBase ∧
         Event.updateLatestAddr q ∉ receive_handshake_packet 2048 initSkb 148 oraclesBase ∧
         ∀ l, Event.rxStats q l ∉ receive_handshake_packet 2048 initSkb 148 oraclesBase :=
  under_load_no_cookie_single_reply 2048 initSkb 148 oraclesBase (by decide) rfl (Or.inl rfl)

/-- C5 (amended): the worker computes under_load from the queue length as it
is after the element has been dequeued, not before: for a parse-clean
initiation whose MAC1 is valid without a cookie, the worker's handling of the
head element is the cookie-reply action exactly when the length of the
remaining queue (not the length including the head) reaches half capacity. -/
theorem worker_under_load_after_dequeue (o : Oracles) (skb : Skb)
    (rest : List Skb) (off len : Nat)
    (hparse : skb_data_offset skb = some (off, len))
    (hmt : message_determine_type skb.payloadType len = MessageType.handshakeInitiation)
    (hmac : ∀ b, o.cookieValidate skb b = CookieMacState.validMacButNoCookie) :
    ∃ t, packet_process_queued_handshake_packets o (skb :: rest) 0 =
        receive_handshake_packet rest.length skb len o ++ Event.freeSkb :: t ∧
      (receive_handshake_packet rest.length skb len o =
          [Event.cookieValidateCall, Event.cookieReplySent skb.src skb.senderIndex] ↔
        MAX_QUEUED_HANDSHAKES / 2 ≤ rest.length) := by
  refine ⟨packet_process_queued_handshake_packets o rest 1, ?_, ?_⟩
  · simp [packet_process_queued_handshake_packets, hparse, MAX_BURST_HANDSHAKES]
  · constructor
    · intro htr
      by_contra hq
      have hul : decide (MAX_QUEUED_HANDSHAKES / 2 ≤ rest.length) = false := by
        simpa using hq
      simp [receive_handshake_packet, hmt, hul, hmac false, handshake_decision] at htr
    · intro hq
      have hul : decide (MAX_QUEUED_HANDSHAKES / 2 ≤ rest.length) = true := decide_eq_true hq
      simp [receive_handshake_packet, hmt, hul, hmac true, handshake_decision]

/-- C5 witness: the decomposition applied to a queue holding one concrete
initiation, whose remaining length 0 is below half capacity. -/
theorem worker_under_load_after_dequeue_witness :
    ∃ t, packet_process_queued_handshake_packets oraclesBase [initSkb] 0 =
        receive_handshake_packet (List.length ([] : List Skb)) initSkb 148 oraclesBase ++
          Event.freeSkb :: t ∧
      (receive_handshake_packet (List.length ([] : List Skb)) initSkb 148 oraclesBase =
          [Event.cookieValidateCall, Event.cookieReplySent initSkb.src initSkb.senderIndex] ↔
        MAX_QUEUED_HANDSHAKES / 2 ≤ List.length ([] : List Skb)) :=
  worker_under_load_after_dequeue oraclesBase initSkb [] 28 148 (by decide) rfl
    (fun _ => rfl)

theorem worker_step_initSkb (rest : List Skb) (num : Nat) :
    packet_process_queued_handshake_packets oraclesBase (initSkb :: rest) num =
      receive_handshake_packet rest.length initSkb 148 oraclesBase ++
        Event.freeSkb ::
          (if num + 1 = MAX_BURST_HANDSHAKES then [Event.queueWork]
           else packet_process_queued_handshake_packets oraclesBase rest (num + 1)) := by
  have hp : skb_data_offset initSkb = some (28, 148) := by decide
  simp [packet_process_queued_handshake_packets, hp]

theorem receive_handshake_initSkb_accept (queueLen : Nat)
    (hq : queueLen < MAX_QUEUED_HANDSHAKES / 2) :
    receive_handshake_packet queueLen initSkb 148 oraclesBase =
      [Event.cookieValidateCall, Event.consumeInitiationCall,
       Event.updateLatestAddr 7, Event.sendHandshakeResponse 7,
       Event.rxStats 7 148, Event.timersAnyAuthorized 7,
       Event.updateLatestAddr 7, Event.peerPut (some 7)] := by
  have hul : decide (MAX_QUEUED_HANDSHAKES / 2 ≤ queueLen) = false := by
    simpa using Nat.not_le.mpr hq
  have hmt : message_determine_type initSkb.payloadType 148 =
      MessageType.handshakeInitiation := by decide
  simp [receive_handshake_packet, hmt, hul, handshake_decision, oraclesBase,
    handshake_tail]

theorem worker_initSkb_no_cookie_reply (n : Nat) :
    ∀ num s i, n ≤ MAX_QUEUED_HANDSHAKES / 2 →
      Event.cookieReplySent s i ∉
        packet_process_queued_handshake_packets oraclesBase
          (List.replicate n initSkb) num := by
  induction n with
  | zero =>
    intro num s i _ h
    simp [packet_process_queued_handshake_packets] at h
  | succ m ih =>
    intro num s i hn hmem
    rw [List.replicate_succ, worker_step_initSkb, List.length_replicate,
        receive_handshake_initSkb_accept m (Nat.lt_of_succ_le hn)] at hmem
    simp only [List.mem_append, List.mem_cons] at hmem
    rcases hmem with hmem | hmem
    · simp at hmem
    · rcases hmem with hmem | hmem
      · exact Event.noConfusion hmem
      · by_cases hb : num + 1 = MAX_BURST_HANDSHAKES
        · rw [if_pos hb] at hmem
          simp at hmem
        · rw [if_neg hb] at hmem
          exact ih (num + 1) s i (Nat.le_of_lt (Nat.lt_of_succ_le hn)) hmem

/-- C5 counterexample: a queue at exactly half capacity.  Per the claim the
head element should see the before-dequeue length 2048, be under load, and
draw a cookie reply; instead the worker sees the after-dequeue length 2047,
is not under load, and accepts the message into handshake consumption. -/
theorem worker_half_capacity_head_accepted :
    Event.cookieReplySent initSkb.src initSkb.senderIndex ∉
      packet_process_queued_handshake_packets oraclesBase bigQueue 0 ∧
    accepts (packet_process_queued_handshake_packets oraclesBase bigQueue 0) := by
  constructor
  · exact worker_initSkb_no_cookie_reply (MAX_QUEUED_HANDSHAKES / 2) 0
      initSkb.src initSkb.senderIndex le_rfl
  · have h2048 : MAX_QUEUED_HANDSHAKES / 2 = 2047 + 1 := by decide
    unfold bigQueue
    rw [h2048, List.replicate_succ, worker_step_initSkb, List.length_replicate,
        receive_handshake_initSkb_accept 2047 (by decide)]
    unfold accepts
    exact Or.inl (List.mem_append_left _ (by simp))

/-- C10: the worker parses every dequeued buffer anew; a buffer failing the
parse contributes only its free to the trace (the cookie checker, the noise
consumers, the cookie consumer and the rx counters are never reached), and a
successful parse guarantees the 4-byte message header is pullable. -/
theorem worker_reparses_and_drops_unparsable (o : Oracles) (skb : Skb)
    (rest : List Skb) (num : Nat)
    (hfail : skb_data_offset skb = none) :
    packet_process_queued_handshake_packets o (skb :: rest) num =
      Event.freeSkb ::
        (if num + 1 = MAX_BURST_HANDSHAKES then [Event.queueWork]
         else packet_process_queued_handshake_packets o rest (num + 1)) ∧
    (∀ q n, (∀ s ∈ q, skb_data_offset s = none) →
        Event.cookieValidateCall ∉ packet_process_queued_handshake_packets o q n ∧
        Event.consumeInitiationCall ∉ packet_process_queued_handshake_packets o q n ∧
        Event.consumeResponseCall ∉ packet_process_queued_handshake_packets o q n ∧
        Event.cookieConsume ∉ packet_process_queued_handshake_packets o q n ∧
        ∀ p l, Event.rxStats p l ∉ packet_process_queued_handshake_packets o q n) ∧
    (∀ s offLen, skb_data_offset s = some offLen →
        s.mayPull (offLen.1 + MESSAGE_HEADER_SIZE) = true) := by
  refine ⟨by simp [packet_process_queued_handshake_packets, hfail], ?_, ?_⟩
  · intro q
    induction q with
    | nil => intro n _; simp [packet_process_queued_handshake_packets]
    | cons s rest ih =>
      intro n hall
      have hs : skb_data_offset s = none := hall s (List.mem_cons_self s rest)
      have hrest : ∀ x ∈ rest, skb_data_offset x = none :=
        fun x hx => hall x (List.mem_cons_of_mem s hx)
      by_cases hb : n + 1 = MAX_BURST_HANDSHAKES
      · simp [packet_process_queued_handshake_packets, hs, hb]
      · have ihr := ih (n + 1) hrest
        simp only [packet_process_queued_handshake_packets, hs, if_neg hb]
        refine ⟨?_, ?_, ?_, ?_, ?_⟩ <;> simp_all
  · intro s offLen hsome
    rw [skb_data_offset_characterization s] at hsome
    split_ifs at hsome with hd
    push_neg at hd
    have hpair := Option.some_inj.mp hsome
    rw [← hpair]
    simpa using hd.2.2.2.2.2.2

/-- C10 witness: a concrete truncated datagram at the head of the queue. -/
theorem worker_reparses_and_drops_unparsable_witness :
    packet_process_queued_handshake_packets oraclesBase [badSkb] 0 =
      Event.freeSkb ::
        (if 0 + 1 = MAX_BURST_HANDSHAKES then [Event.queueWork]
         else packet_process_queued_handshake_packets oraclesBase [] (0 + 1)) ∧
    (∀ q n, (∀ s ∈ q, skb_data_offset s = none) →
        Event.cookieValidateCall ∉ packet_process_queued_handshake_packets oraclesBase q n ∧
        Event.consumeInitiationCall ∉ packet_process_queued_handshake_packets oraclesBase q n ∧
        Event.consumeResponseCall ∉ packet_process_queued_handshake_packets oraclesBase q n ∧
        Event.cookieConsume ∉ packet_process_queued_handshake_packets oraclesBase q n ∧
        ∀ p l, Event.rxStats p l ∉ packet_process_queued_handshake_packets oraclesBase q n) ∧
    (∀ s offLen, skb_data_offset s = some offLen →
        s.mayPull (offLen.1 + MESSAGE_HEADER_SIZE) = true) :=
  worker_reparses_and_drops_unparsable oraclesBase badSkb [] 0 (by decide)

/-- C2 (amended): the receive entry point enqueues a handshake datagram only
when the queue length is at most MAX_QUEUED_HANDSHAKES (not strictly below
it), so the queue length never exceeds MAX_QUEUED_HANDSHAKES + 1. -/
theorem packet_receive_enqueue_bound (o : Oracles) (queueLen : Nat) (skb : Skb)
    (h : Event.enqueueHandshake ∈ packet_receive o queueLen skb) :
    queueLen ≤ MAX_QUEUED_HANDSHAKES ∧
    queueLen + 1 ≤ MAX_QUEUED_HANDSHAKES + 1 := by
  have hq : queueLen ≤ MAX_QUEUED_HANDSHAKES := by
    unfold packet_receive at h
    split at h
    · simp at h
    · split at h <;>
        first
          | (split_ifs at h with h1 h2 <;>
              first
                | exact Nat.not_lt.mp h1
                | simp at h)
          | simp at h
  exact ⟨hq, Nat.succ_le_succ hq⟩

/-- C2 witness: the bound applied at a concrete queue length of 0. -/
theorem packet_receive_enqueue_bound_witness :
    0 ≤ MAX_QUEUED_HANDSHAKES ∧ 0 + 1 ≤ MAX_QUEUED_HANDSHAKES + 1 :=
  packet_receive_enqueue_bound oraclesBase 0 initSkb (by decide)

/-- C2 counterexample: with the queue already at its capacity of
MAX_QUEUED_HANDSHAKES, the entry point still enqueues a well-formed handshake
datagram (the drop check is `> capacity`, not `≥ capacity`), so the length
reaches capacity + 1, refuting both the strict-enqueue condition and the
`len ≤ capacity` invariant. -/
theorem packet_receive_enqueues_at_capacity :
    Event.enqueueHandshake ∈
      packet_receive oraclesBase MAX_QUEUED_HANDSHAKES initSkb ∧
    ¬ MAX_QUEUED_HANDSHAKES < MAX_QUEUED_HANDSHAKES := by
  constructor <;> decide

theorem rdp_processed_ref (p : Nat) :
    traceRefDelta p (rdp_processed p) = -1 ∧
    (rdp_processed p).count Event.freeSkb + (rdp_processed p).count Event.netifRx = 1 := by
  simp [rdp_processed, rdp_continue, traceRefDelta, refDelta, List.count_cons, beq_iff_eq]

theorem rdp_lenerr_ref (p : Nat) :
    traceRefDelta p (Event.incRxErrors :: Event.incRxLengthErrors :: rdp_processed p) = -1 ∧
    (Event.incRxErrors :: Event.incRxLengthErrors :: rdp_processed p).count Event.freeSkb +
      (Event.incRxErrors :: Event.incRxLengthErrors :: rdp_processed p).count
        Event.netifRx = 1 := by
  simp [rdp_processed, rdp_continue, traceRefDelta, refDelta, List.count_cons, beq_iff_eq]

theorem rdp_after_proto_ref (o : Oracles) (skb : Skb) (p : Nat) :
    traceRefDelta p (rdp_after_proto o skb p) = -1 ∧
    (rdp_after_proto o skb p).count Event.freeSkb +
      (rdp_after_proto o skb p).count Event.netifRx = 1 := by
  unfold rdp_after_proto
  rcases hro : o.routeLookupSrc skb with _ | r
  · simp [rdp_processed, rdp_continue, traceRefDelta, refDelta, List.count_cons, beq_iff_eq]
  · by_cases hrp : r = p
    · subst hrp
      cases hnet : o.netifRxSuccess skb <;>
        simp [hnet, rdp_processed, rdp_continue, traceRefDelta, refDelta,
          List.count_cons, beq_iff_eq]
    · simp [hrp, rdp_processed, rdp_continue, traceRefDelta, refDelta,
        List.count_cons, beq_iff_eq]

theorem ref_goal_pre (p : Nat) (pre L : List Event)
    (hpre0 : traceRefDelta p pre = 0)
    (hpre1 : pre.count Event.freeSkb = 0)
    (hpre2 : pre.count Event.netifRx = 0)
    (hL : traceRefDelta p L = -1 ∧ L.count Event.freeSkb + L.count Event.netifRx = 1) :
    traceRefDelta p (pre ++ L) = -1 ∧
    (pre ++ L).count Event.freeSkb + (pre ++ L).count Event.netifRx = 1 := by
  obtain ⟨hd, hc⟩ := hL
  constructor
  · rw [traceRefDelta_append, hpre0, hd, zero_add]
  · rw [List.count_append, List.count_append, hpre1, hpre2]
    omega

/-- C3 (amended): on the early-return path (negative error or missing peer or
address) receive_data_packet frees the buffer and - amending the original
claim - releases no peer reference at all; on every other path it releases
exactly one net reference on the authenticated peer and disposes of the
buffer exactly once (freed, or handed to the netstack by netif_rx). -/
theorem receive_data_packet_ref_discipline (o : Oracles) (skb : Skb)
    (peer addr : Option Nat) (unk : Bool) (err : Int) :
    (err < 0 ∨ peer = none ∨ addr = none →
      receive_data_packet o skb peer addr unk err = [Event.freeSkb]) ∧
    (∀ p, peer = some p → ¬ err < 0 → addr ≠ none →
      traceRefDelta p (receive_data_packet o skb peer addr unk err) = -1 ∧
      (receive_data_packet o skb peer addr unk err).count Event.freeSkb +
        (receive_data_packet o skb peer addr unk err).count Event.netifRx = 1) := by
  constructor
  · intro h
    unfold receive_data_packet
    rw [if_pos h]
  · intro p hp herr ha
    have hcond : ¬(err < 0 ∨ peer = none ∨ addr = none) := by
      push_neg
      exact ⟨not_lt.mp herr, by simp [hp], ha⟩
    subst hp
    unfold receive_data_packet
    rw [if_neg hcond]
    simp only [Option.getD_some]
    split_ifs with h0 h1 h2 h3 h4 h5 h6 <;>
      first
        | exact ref_goal_pre p _ _ rfl rfl rfl (rdp_processed_ref p)
        | exact ref_goal_pre p _ _ rfl rfl rfl (rdp_lenerr_ref p)
        | exact ref_goal_pre p _ _ rfl rfl rfl (rdp_after_proto_ref o skb p)

/-- C3 witness: the main-path conclusion at a concrete successful decryption
for peer 5. -/
theorem receive_data_packet_ref_discipline_witness :
    traceRefDelta 5 (receive_data_packet oraclesBase innerSkb (some 5) (some 3) false 0) = -1 ∧
    (receive_data_packet oraclesBase innerSkb (some 5) (some 3) false 0).count
        Event.freeSkb +
      (receive_data_packet oraclesBase innerSkb (some 5) (some 3) false 0).count
        Event.netifRx = 1 :=
  (receive_data_packet_ref_discipline oraclesBase innerSkb (some 5) (some 3) false 0).2
    5 rfl (by decide) (by decide)

/-- C3 counterexample: invoked with err = -1 and a non-null peer and address,
the callback takes the early return, frees the buffer, and calls peer_put
zero times - not exactly once as the claim states. -/
theorem early_return_releases_no_reference :
    receive_data_packet oraclesBase innerSkb (some 5) (some 3) false (-1) =
      [Event.freeSkb] ∧
    (receive_data_packet oraclesBase innerSkb (some 5) (some 3) false (-1)).count
        (Event.peerPut (some 5)) = 0 := by
  constructor <;> decide

/-- C4 (amended): for a decrypted keep-alive (err ≥ 0, non-null peer and
address, plaintext length 0) the callback does NOT call timers_data_received
(amending the original claim, which requires that call), does call
timers_any_authorized_packet_received, hands nothing to the netstack, and
performs no rx_packets/rx_bytes accounting. -/
theorem keepalive_path (o : Oracles) (skb : Skb) (p a : Nat) (unk : Bool)
    (err : Int) (herr : ¬ err < 0) (hlen : skb.len = 0) :
    receive_data_packet o skb (some p) (some a) unk err =
      (if unk = true then [Event.packetSendQueue p] else []) ++ rdp_processed p ∧
    (∀ q, Event.timersDataReceived q ∉
        receive_data_packet o skb (some p) (some a) unk err) ∧
    Event.timersAnyAuthorized p ∈ receive_data_packet o skb (some p) (some a) unk err ∧
    Event.netifRx ∉ receive_data_packet o skb (some p) (some a) unk err ∧
    ∀ q l, Event.rxStats q l ∉ receive_data_packet o skb (some p) (some a) unk err := by
  have hcond : ¬(err < 0 ∨ (some p : Option Nat) = none ∨
      (some a : Option Nat) = none) := by
    push_neg
    exact ⟨not_lt.mp herr, by simp, by simp⟩
  have htr : receive_data_packet o skb (some p) (some a) unk err =
      (if unk = true then [Event.packetSendQueue p] else []) ++ rdp_processed p := by
    unfold receive_data_packet
    rw [if_neg hcond]
    simp [hlen]
  refine ⟨htr, fun q => ?_, ?_, ?_, fun q l => ?_⟩ <;> rw [htr] <;> rcases unk <;>
    simp [rdp_processed, rdp_continue]

/-- C4 witness: the keep-alive characterization at a concrete zero-length
plaintext for peer 5. -/
theorem keepalive_path_witness :
    receive_data_packet oraclesBase keepaliveSkb (some 5) (some 3) false 0 =
      (if (false : Bool) = true then [Event.packetSendQueue 5] else []) ++
        rdp_processed 5 ∧
    (∀ q, Event.timersDataReceived q ∉
        receive_data_packet oraclesBase keepaliveSkb (some 5) (some 3) false 0) ∧
    Event.timersAnyAuthorized 5 ∈
      receive_data_packet oraclesBase keepaliveSkb (some 5) (some 3) false 0 ∧
    Event.netifRx ∉ receive_data_packet oraclesBase keepaliveSkb (some 5) (some 3) false 0 ∧
    ∀ q l, Event.rxStats q l ∉
      receive_data_packet oraclesBase keepaliveSkb (some 5) (some 3) false 0 :=
  keepalive_path oraclesBase keepaliveSkb 5 3 false 0 (by decide) rfl

/-- C4 counterexample: on a concrete keep-alive the full trace is the free
plus the common tail; it contains no timers_data_received call, though the
claim requires one. -/
theorem keepalive_no_timers_data_received :
    receive_data_packet oraclesBase keepaliveSkb (some 5) (some 3) false 0 =
      [Event.freeSkb, Event.timersAnyAuthorized 5, Event.setPeerAddr 5,
       Event.peerPut (some 5)] ∧
    Event.timersDataReceived 5 ∉
      receive_data_packet oraclesBase keepaliveSkb (some 5) (some 3) false 0 := by
  constructor <;> decide

/-- C6: a decrypted data packet that reaches the cryptokey-routing check and
whose inner source address resolves to something other than the authenticated
peer is never handed to the netstack; rx_errors and rx_frame_errors are each
incremented exactly once and the buffer is freed exactly once. -/
theorem routing_mismatch_never_delivered (o : Oracles) (skb : Skb) (p a : Nat)
    (unk : Bool) (err : Int) (herr : ¬ err < 0)
    (hlen : IPHDR_SIZE ≤ skb.len) (hpull : skb.mayPull 1 = true)
    (hver : skb.ipVersion = 4 ∨ (skb.ipVersion = 6 ∧ IPV6HDR_SIZE ≤ skb.len))
    (hroute : o.routeLookupSrc skb ≠ some p) :
    Event.netifRx ∉ receive_data_packet o skb (some p) (some a) unk err ∧
    (receive_data_packet o skb (some p) (some a) unk err).count Event.incRxErrors = 1 ∧
    (receive_data_packet o skb (some p) (some a) unk err).count
      Event.incRxFrameErrors = 1 ∧
    (receive_data_packet o skb (some p) (some a) unk err).count Event.freeSkb = 1 := by
  have hcond : ¬(err < 0 ∨ (some p : Option Nat) = none ∨
      (some a : Option Nat) = none) := by
    push_neg
    exact ⟨not_lt.mp herr, by simp, by simp⟩
  have hlen0 : ¬ skb.len = 0 := by
    intro h0
    rw [h0] at hlen
    exact absurd hlen (by decide)
  have htr : receive_data_packet o skb (some p) (some a) unk err =
      (if unk = true then [Event.packetSendQueue p] else []) ++
        rdp_after_proto o skb p := by
    unfold receive_data_packet
    rw [if_neg hcond]
    rcases hver with h4 | ⟨h6, h6len⟩
    · simp [hlen0, Nat.not_lt.mpr hlen, hpull, h4]
    · simp [hlen0, Nat.not_lt.mpr hlen, hpull, h6, Nat.not_lt.mpr h6len]
  have hap : rdp_after_proto o skb p =
      Event.timersDataReceived p :: Event.routeLookup (o.routeLookupSrc skb) ::
        Event.peerPut (o.routeLookupSrc skb) ::
        Event.incRxErrors :: Event.incRxFrameErrors :: rdp_processed p := by
    unfold rdp_after_proto
    simp [hroute]
  rw [htr, hap]
  rcases unk <;>
    refine ⟨?_, ?_, ?_, ?_⟩ <;>
    simp [rdp_processed, rdp_continue, List.count_append, List.count_cons, beq_iff_eq]

/-- C6 witness: a concrete 64-byte inner IPv4 packet authenticated for peer 5
whose inner source routes to peer 6. -/
theorem routing_mismatch_never_delivered_witness :
    Event.netifRx ∉
      receive_data_packet oraclesForeignRoute innerSkb (some 5) (some 3) false 0 ∧
    (receive_data_packet oraclesForeignRoute innerSkb (some 5) (some 3) false 0).count
        Event.incRxErrors = 1 ∧
    (receive_data_packet oraclesForeignRoute innerSkb (some 5) (some 3) false 0).count
        Event.incRxFrameErrors = 1 ∧
    (receive_data_packet oraclesForeignRoute innerSkb (some 5) (some 3) false 0).count
        Event.freeSkb = 1 :=
  routing_mismatch_never_delivered oraclesForeignRoute innerSkb 5 3 false 0
    (by decide) (by decide) (by decide) (Or.inl rfl) (by decide)

/-- C9: every data packet reaching the cryptokey-routing source check performs
the routing lookup exactly once and immediately afterwards releases the
returned handle (whether null, matching, or foreign); the lookup-and-release
pair leaves every peer's reference count unchanged, in particular the
authenticated peer's. -/
theorem route_lookup_handle_released (o : Oracles) (skb : Skb) (p a : Nat)
    (unk : Bool) (err : Int) (herr : ¬ err < 0)
    (hlen : IPHDR_SIZE ≤ skb.len) (hpull : skb.mayPull 1 = true)
    (hver : skb.ipVersion = 4 ∨ (skb.ipVersion = 6 ∧ IPV6HDR_SIZE ≤ skb.len)) :
    ∃ pre post,
      receive_data_packet o skb (some p) (some a) unk err =
        pre ++ Event.routeLookup (o.routeLookupSrc skb) ::
          Event.peerPut (o.routeLookupSrc skb) :: post ∧
      (receive_data_packet o skb (some p) (some a) unk err).count
          (Event.routeLookup (o.routeLookupSrc skb)) = 1 ∧
      ∀ q, traceRefDelta q
          [Event.routeLookup (o.routeLookupSrc skb),
           Event.peerPut (o.routeLookupSrc skb)] = 0 := by
  have hcond : ¬(err < 0 ∨ (some p : Option Nat) = none ∨
      (some a : Option Nat) = none) := by
    push_neg
    exact ⟨not_lt.mp herr, by simp, by simp⟩
  have hlen0 : ¬ skb.len = 0 := by
    intro h0
    rw [h0] at hlen
    exact absurd hlen (by decide)
  have htr : receive_data_packet o skb (some p) (some a) unk err =
      (if unk = true then [Event.packetSendQueue p] else []) ++
        rdp_after_proto o skb p := by
    unfold receive_data_packet
    rw [if_neg hcond]
    rcases hver with h4 | ⟨h6, h6len⟩
    · simp [hlen0, Nat.not_lt.mpr hlen, hpull, h4]
    · simp [hlen0, Nat.not_lt.mpr hlen, hpull, h6, Nat.not_lt.mpr h6len]
  refine ⟨(if unk = true then [Event.packetSendQueue p] else []) ++
      [Event.timersDataReceived p],
    (if o.routeLookupSrc skb ≠ some p then
      Event.incRxErrors :: Event.incRxFrameErrors :: rdp_processed p
     else if o.netifRxSuccess skb = true then
      Event.netifRx :: Event.rxStats p skb.len :: rdp_continue p
     else
      Event.netifRx :: Event.incRxDropped :: rdp_continue p), ?_, ?_, ?_⟩
  · rw [htr]
    unfold rdp_after_proto
    simp [List.append_assoc]
  · rw [htr]
    unfold rdp_after_proto
    rcases unk <;> by_cases hro : o.routeLookupSrc skb ≠ some p
    · simp [hro, rdp_processed, rdp_continue, List.count_append, List.count_cons,
        beq_iff_eq]
    · cases hnet : o.netifRxSuccess skb <;>
        simp [hro, hnet, rdp_processed, rdp_continue, List.count_append,
          List.count_cons, beq_iff_eq]
    · simp [hro, rdp_processed, rdp_continue, List.count_append, List.count_cons,
        beq_iff_eq]
    · cases hnet : o.netifRxSuccess skb <;>
        simp [hro, hnet, rdp_processed, rdp_continue, List.count_append,
          List.count_cons, beq_iff_eq]
  · intro q
    rcases o.routeLookupSrc skb with _ | x
    · simp [traceRefDelta, refDelta]
    · by_cases hx : x = q <;> simp [traceRefDelta, refDelta, hx]

/-- C9 witness: the lookup-and-release characterization at a concrete inner
IPv4 packet for peer 5 with the baseline collaborators. -/
theorem route_lookup_handle_released_witness :
    ∃ pre post,
      receive_data_packet oraclesBase innerSkb (some 5) (some 3) false 0 =
        pre ++ Event.routeLookup (oraclesBase.routeLookupSrc innerSkb) ::
          Event.peerPut (oraclesBase.routeLookupSrc innerSkb) :: post ∧
      (receive_data_packet oraclesBase innerSkb (some 5) (some 3) false 0).count
          (Event.routeLookup (oraclesBase.routeLookupSrc innerSkb)) = 1 ∧
      ∀ q, traceRefDelta q
          [Event.routeLookup (oraclesBase.routeLookupSrc innerSkb),
           Event.peerPut (oraclesBase.routeLookupSrc innerSkb)] = 0 :=
  route_lookup_handle_released oraclesBase innerSkb 5 3 false 0
    (by decide) (by decide) (by decide) (Or.inl rfl)

end WireGuardReceive
